import Mathlib

set_option synthInstance.maxHeartbeats 1000000

/-!
Verification of the capability-discovery and worker-loop core of
cl_server_compute.

The development shallowly embeds the relevant parts of
`src/compute/capability_manager.py`, `src/compute/capability_broadcaster.py`
and `src/compute/worker.py`:

* Python strings are modelled as `List Char` (`PyStr`); `str.split` and
  `str.strip` are implemented structurally so that everything evaluates.
* The aggregator's `capabilities_cache` dict is modelled as an association
  list with Python-dict update semantics (replace value in place, insert at
  the end for fresh keys); `CapabilityManager.on_message`,
  `get_cached_capabilities` and `get_worker_count_by_capability` are direct
  translations.  Pydantic's `model_validate_json` is an external library and
  is abstracted as a `parse` function parameter.
* The asynchronous worker loop is embedded as an event-trace semantics:
  `process_next_job` threads the advertiser state and returns the list of
  publish/run events the Python coroutine performs, and `runTrace` is the
  trace of one graceful run of `ComputeWorker.run`.
* The two-stage signal handling of `worker.signal_handler` is embedded as a
  transition on the module-level counter state.
-/

/-- Python `str`, modelled as its character list so all operations compute. -/
abbrev PyStr := List Char

/-- Python `s.split(sep)` for a one-character separator: splits at every
occurrence of `sep`, keeping empty segments; the result is never empty. -/
def pySplit (sep : Char) (s : PyStr) : List PyStr :=
  match s with
  | [] => [[]]
  | c :: rest =>
    match pySplit sep rest with
    | [] => [[c]]
    | w :: ws => if c = sep then [] :: w :: ws else (c :: w) :: ws

/-- Python `s.strip()`: removes leading and trailing whitespace. -/
def pyStrip (s : PyStr) : PyStr :=
  ((s.dropWhile Char.isWhitespace).reverse.dropWhile Char.isWhitespace).reverse

/-- Python `parts[-1]`, used on the (always non-empty) result of a split. -/
def lastSeg (l : List PyStr) : PyStr := l.reverse.headD []

/-- `CapabilityMessage` (pydantic model in `capability_manager.py`). -/
structure CapabilityMessage where
  id : PyStr
  capabilities : List PyStr
  idle_count : Int
  timestamp : Int
deriving DecidableEq

/-- Lookup in an association list (Python `d.get(k)` / `k in d`). -/
def alistLookup {α : Type} : List (PyStr × α) → PyStr → Option α
  | [], _ => none
  | p :: rest, k => if p.1 = k then some p.2 else alistLookup rest k

/-- Python `d[k] = v`: replace the value in place if the key is present,
otherwise append the new binding (dict insertion order). -/
def alistInsert {α : Type} : List (PyStr × α) → PyStr → α → List (PyStr × α)
  | [], k, v => [(k, v)]
  | p :: rest, k, v =>
    if p.1 = k then (k, v) :: rest else p :: alistInsert rest k v

/-- Python `d.pop(k, None)`: drop the binding for `k` if present. -/
def alistErase {α : Type} : List (PyStr × α) → PyStr → List (PyStr × α)
  | [], _ => []
  | p :: rest, k => if p.1 = k then alistErase rest k else p :: alistErase rest k

/-- The aggregator's `capabilities_cache : dict[str, CapabilityMessage]`. -/
abbrev Cache := List (PyStr × CapabilityMessage)

/-- `CapabilityManager.on_message(topic, payload)` as a pure cache
transformer.  `parse` abstracts `CapabilityMessage.model_validate_json`;
a `none` result covers both the `json.JSONDecodeError` branch and the outer
catch-all `except`, which leave the cache untouched. -/
def on_message (parse : PyStr → Option CapabilityMessage) (cache : Cache)
    (topic payload : PyStr) : Cache :=
  let parts := pySplit '/' topic
  if parts.length < 3 then cache
  else
    let worker_id := lastSeg parts
    if payload = [] ∨ pyStrip payload = [] then alistErase cache worker_id
    else
      match parse payload with
      | some data => alistInsert cache worker_id data
      | none => cache

/-- Inner loop shared by both aggregation queries: for every `capability` in
`caps`, initialise the entry to `0` if absent, then add `n` to it. -/
def addCapabilities (a : List (PyStr × Int)) (caps : List PyStr) (n : Int) :
    List (PyStr × Int) :=
  caps.foldl (fun acc cap => alistInsert acc cap ((alistLookup acc cap).getD 0 + n)) a

/-- `CapabilityManager.get_cached_capabilities`: sums `idle_count` into the
accumulator once per occurrence of each capability name. -/
def get_cached_capabilities (c : Cache) : List (PyStr × Int) :=
  c.foldl (fun acc p => addCapabilities acc p.2.capabilities p.2.idle_count) []

/-- `CapabilityManager.get_worker_count_by_capability`: adds `1` into the
accumulator once per occurrence of each capability name. -/
def get_worker_count_by_capability (c : Cache) : List (PyStr × Int) :=
  c.foldl (fun acc p => addCapabilities acc p.2.capabilities 1) []

/-- Spec-side weight of one cache entry list under a per-message weight `f`:
`f` times the number of occurrences of `t`, summed over the cache. -/
def occSum (f : CapabilityMessage → Int) : Cache → PyStr → Int
  | [], _ => 0
  | p :: c, t => f p.2 * (p.2.capabilities.count t : Int) + occSum f c t

/-- Modelled from the spec: "the sum of the `idle_count` fields over all
cache entries whose `capabilities` contains T" (each entry counted once). -/
def specIdleSum (c : Cache) (t : PyStr) : Int :=
  ((c.filter (fun p => p.2.capabilities.contains t)).map (fun p => p.2.idle_count)).sum

/-- Modelled from the spec: "the number of cache entries whose
`capabilities` list contains T" (each entry counted once). -/
def specWorkerCount (c : Cache) (t : PyStr) : Int :=
  ((c.filter (fun p => p.2.capabilities.contains t)).length : Int)

/-- The three distinct startup diagnostics raised by `ComputeWorker.__init__`
when no task type is active.  `noMatchingPlugins` carries the requested and
available sets that the Python error message interpolates. -/
inductive WorkerInitError where
  | noPluginsFound : WorkerInitError
  | noMatchingPlugins : Finset PyStr → Finset PyStr → WorkerInitError
  | noTaskTypesSpecified : WorkerInitError
deriving DecidableEq

/-- The `requested_tasks` expression of `ComputeWorker.__init__`: the
explicit `supported_tasks` argument if truthy, else the configured
`Config.WORKER_SUPPORTED_TASKS` if truthy, else everything available. -/
def resolveRequestedTasks (available : Finset PyStr)
    (supported_tasks : Option (List PyStr)) (configTasks : List PyStr) :
    Finset PyStr :=
  match supported_tasks with
  | some l =>
    if l ≠ [] then l.toFinset
    else if configTasks ≠ [] then configTasks.toFinset else available
  | none =>
    if configTasks ≠ [] then configTasks.toFinset else available

/-- The task-type resolution and validation of `ComputeWorker.__init__`:
`active_tasks` is `available ∩ requested`; if it is empty the constructor
raises one of three diagnostics, chosen exactly as the Python `if` chain. -/
def resolveActiveTasks (available : Finset PyStr)
    (supported_tasks : Option (List PyStr)) (configTasks : List PyStr) :
    Except WorkerInitError (Finset PyStr) :=
  let requested := resolveRequestedTasks available supported_tasks configTasks
  let active := available ∩ requested
  if active = ∅ then
    if requested ≠ ∅ ∧ available = ∅ then Except.error WorkerInitError.noPluginsFound
    else if requested ≠ ∅ ∧ available ≠ ∅ then
      Except.error (WorkerInitError.noMatchingPlugins requested available)
    else Except.error WorkerInitError.noTaskTypesSpecified
  else Except.ok active

/-- Outcome of `library_worker.run_once`: claimed and ran a job, found no
job, or raised. -/
inductive RunOutcome where
  | processed : RunOutcome
  | noJob : RunOutcome
  | raised : RunOutcome
deriving DecidableEq

/-- Observable events of the worker process, in program order. -/
inductive WorkerEvent where
  | capPublish : Nat → WorkerEvent
  | heartbeatPublish : WorkerEvent
  | runOnceStart : WorkerEvent
  | runOnceEnd : RunOutcome → WorkerEvent
  | initAdvertiser : WorkerEvent
  | startHeartbeat : WorkerEvent
  | cancelHeartbeat : WorkerEvent
  | awaitHeartbeatDone : WorkerEvent
  | clearRetained : WorkerEvent
deriving DecidableEq

/-- The mutable `is_idle` flag of `CapabilityBroadcaster`. -/
structure AdvertiserState where
  is_idle : Bool
deriving DecidableEq

/-- The `idle_count` field `CapabilityBroadcaster.publish` serialises:
`1 if self.is_idle else 0`. -/
def publishIdleCount (s : AdvertiserState) : Nat := if s.is_idle then 1 else 0

/-- `ComputeWorker._process_next_job`: set `is_idle` to `False` and publish,
run `run_once` (any outcome), then in the `finally` block set `is_idle` to
`True` and publish.  Returns the final advertiser state, the coroutine's
return value, and the emitted event trace. -/
def process_next_job (_s : AdvertiserState) (o : RunOutcome) :
    AdvertiserState × Bool × List WorkerEvent :=
  let busy : AdvertiserState := { is_idle := false }
  let beforeEvents : List WorkerEvent :=
    [WorkerEvent.capPublish (publishIdleCount busy), WorkerEvent.runOnceStart,
     WorkerEvent.runOnceEnd o]
  let result : Bool :=
    match o with
    | RunOutcome.processed => true
    | RunOutcome.noJob => false
    | RunOutcome.raised => false
  let idle : AdvertiserState := { is_idle := true }
  (idle, result, beforeEvents ++ [WorkerEvent.capPublish (publishIdleCount idle)])

/-- One iteration of the `ComputeWorker.run` loop, preceded by the `hb`
heartbeat publishes the concurrent `_heartbeat_task` performed since the
previous iteration. -/
def iterationTrace (hb : Nat) (o : RunOutcome) : List WorkerEvent :=
  List.replicate hb WorkerEvent.heartbeatPublish ++
    (process_next_job { is_idle := true } o).2.2

/-- Trace of `ComputeWorker.run` up to the point where the loop observes the
shutdown flag: advertiser init, initial publish, heartbeat-task start, then
the iterations that completed before shutdown. -/
def runLoopTrace (iters : List (Nat × RunOutcome)) : List WorkerEvent :=
  [WorkerEvent.initAdvertiser, WorkerEvent.capPublish 1, WorkerEvent.startHeartbeat] ++
    (iters.map (fun p => iterationTrace p.1 p.2)).flatten

/-- Full trace of a graceful run of `ComputeWorker.run`: the loop, then the
`finally` block in source order — cancel the heartbeat task, await its
cancellation, and only then publish `clear()`. -/
def runTrace (iters : List (Nat × RunOutcome)) : List WorkerEvent :=
  runLoopTrace iters ++
    [WorkerEvent.cancelHeartbeat, WorkerEvent.awaitHeartbeatDone,
     WorkerEvent.clearRetained]

/-- Module-level signal state of `worker.py`: the `shutdown_signal_count`
counter and whether `shutdown_event` has been set. -/
structure SignalState where
  shutdown_signal_count : Nat
  shutdownEventSet : Bool
deriving DecidableEq

/-- What `signal_handler` does besides mutating state: request a graceful
drain, or terminate the process via `sys.exit(code)`. -/
inductive SignalAction where
  | gracefulShutdown : SignalAction
  | forceExit : Nat → SignalAction
deriving DecidableEq

/-- `worker.signal_handler`: increment the counter; on the first signal set
the shutdown event, on any later signal call `sys.exit(1)`. -/
def signal_handler (s : SignalState) : SignalState × SignalAction :=
  let count := s.shutdown_signal_count + 1
  if count = 1 then
    ({ shutdown_signal_count := count, shutdownEventSet := true },
     SignalAction.gracefulShutdown)
  else
    ({ shutdown_signal_count := count, shutdownEventSet := s.shutdownEventSet },
     SignalAction.forceExit 1)

/-- Cleanup events that still run under each shutdown action.  A graceful
drain exits the loop and runs the `finally` block of `run`: cancel the
heartbeat, await it, publish `clear()`.  The forced path is the same:
`sys.exit(1)` raises `SystemExit`, and in this program (entered through
`asyncio.run(ComputeWorker.run_worker(...))`) that exception unwinds through
the event loop's task-cancellation phase into `run`'s `finally` — neither
`except Exception` clause catches a `BaseException`, the loop's
`except asyncio.CancelledError` breaks out, and the `finally` cancels the
heartbeat, awaits it, and publishes `clear()` before the interpreter exits
with status 1.  The repository's own test confirms `sys.exit` raises rather
than terminates (`pytest.raises(SystemExit)`). -/
def cleanupEvents : SignalAction → List WorkerEvent
  | SignalAction.gracefulShutdown =>
    [WorkerEvent.cancelHeartbeat, WorkerEvent.awaitHeartbeatDone,
     WorkerEvent.clearRetained]
  | SignalAction.forceExit _ =>
    [WorkerEvent.cancelHeartbeat, WorkerEvent.awaitHeartbeatDone,
     WorkerEvent.clearRetained]

/-- Observable state built by `CapabilityManager.__init__`. -/
structure CapabilityManagerState where
  capabilities_cache : Cache
  ready_event : Bool
  broadcasterSubscribed : Bool
deriving DecidableEq

/-- `CapabilityManager.__init__`: empty cache, subscribe only when a
broadcaster is available, and set `ready_event` unconditionally at the end. -/
def capabilityManagerInit (broadcasterAvailable : Bool) : CapabilityManagerState :=
  { capabilities_cache := []
    ready_event := true
    broadcasterSubscribed := broadcasterAvailable }

/-- `CapabilityManager.wait_for_capabilities`: `threading.Event.wait` returns
`True` at once when the event is already set; with no setter pending it
returns the set flag for any timeout. -/
def wait_for_capabilities (s : CapabilityManagerState) (_timeout : Nat) : Bool :=
  s.ready_event

/-- Looking up the key just inserted yields the inserted value. -/
theorem alistLookup_insert_self {α : Type} (a : List (PyStr × α)) (k : PyStr)
    (v : α) : alistLookup (alistInsert a k v) k = some v := by
  induction a with
  | nil => simp [alistInsert, alistLookup]
  | cons p rest ih =>
    by_cases h : p.1 = k
    · simp [alistInsert, alistLookup, h]
    · simp [alistInsert, alistLookup, h, ih]

/-- Inserting one key leaves lookups of every other key unchanged. -/
theorem alistLookup_insert_ne {α : Type} (a : List (PyStr × α)) (k k' : PyStr)
    (v : α) (hne : k' ≠ k) :
    alistLookup (alistInsert a k v) k' = alistLookup a k' := by
  induction a with
  | nil => simp [alistInsert, alistLookup, Ne.symm hne]
  | cons p rest ih =>
    by_cases h : p.1 = k
    · simp [alistInsert, alistLookup, h, Ne.symm hne]
    · simp [alistInsert, alistLookup, h, ih]

/-- After erasing a key, looking it up yields nothing. -/
theorem alistLookup_erase_self {α : Type} (a : List (PyStr × α)) (k : PyStr) :
    alistLookup (alistErase a k) k = none := by
  induction a with
  | nil => simp [alistErase, alistLookup]
  | cons p rest ih =>
    by_cases h : p.1 = k
    · simp [alistErase, h, ih]
    · simp [alistErase, alistLookup, h, ih]

/-- Erasing one key leaves lookups of every other key unchanged. -/
theorem alistLookup_erase_ne {α : Type} (a : List (PyStr × α)) (k k' : PyStr)
    (hne : k' ≠ k) : alistLookup (alistErase a k) k' = alistLookup a k' := by
  induction a with
  | nil => simp [alistErase]
  | cons p rest ih =>
    by_cases h : p.1 = k
    · simp [alistErase, alistLookup, h, Ne.symm hne, ih]
    · simp [alistErase, alistLookup, h, ih]

/-- Erasing an absent key is the identity. -/
theorem alistErase_of_lookup_none {α : Type} (a : List (PyStr × α)) (k : PyStr)
    (h : alistLookup a k = none) : alistErase a k = a := by
  induction a with
  | nil => simp [alistErase]
  | cons p rest ih =>
    by_cases hp : p.1 = k
    · simp [alistLookup, hp] at h
    · simp [alistLookup, hp] at h
      simp [alistErase, hp, ih h]

/-- Effect of the inner aggregation loop on one key: if `t` occurs in
`caps`, its entry gains `n` once per occurrence (starting from `0` when
absent); otherwise the entry is untouched. -/
theorem alistLookup_addCapabilities (caps : List PyStr) :
    ∀ (a : List (PyStr × Int)) (n : Int) (t : PyStr),
    alistLookup (addCapabilities a caps n) t =
      if t ∈ caps then some ((alistLookup a t).getD 0 + n * (caps.count t : Int))
      else alistLookup a t := by
  induction caps with
  | nil => intro a n t; simp [addCapabilities]
  | cons cap caps ih =>
    intro a n t
    have hstep : addCapabilities a (cap :: caps) n =
        addCapabilities (alistInsert a cap ((alistLookup a cap).getD 0 + n)) caps n := by
      simp [addCapabilities, List.foldl_cons]
    rw [hstep, ih]
    by_cases ht : t = cap
    · subst ht
      rw [alistLookup_insert_self]
      by_cases hmem : t ∈ caps
      · simp only [hmem, if_pos, List.mem_cons, true_or, Option.getD_some,
          List.count_cons_self]
        push_cast
        ring_nf
      · have hz : caps.count t = 0 := List.count_eq_zero.mpr hmem
        simp [hmem, hz]
    · rw [alistLookup_insert_ne a cap t _ ht]
      have hcnt : (cap :: caps).count t = caps.count t := by
        simp [List.count_cons, ht]
      by_cases hmem : t ∈ caps
      · simp [hmem, ht, hcnt]
      · simp [hmem, ht]

/-- A cache in which no entry mentions `t` contributes zero weight. -/
theorem occSum_eq_zero (f : CapabilityMessage → Int) (c : Cache) (t : PyStr)
    (h : ∀ p ∈ c, t ∉ p.2.capabilities) : occSum f c t = 0 := by
  induction c with
  | nil => simp [occSum]
  | cons p c ih =>
    have hz : p.2.capabilities.count t = 0 :=
      List.count_eq_zero.mpr (h p (List.mem_cons_self p c))
    have hrest : occSum f c t = 0 := ih (fun q hq => h q (List.mem_cons_of_mem p hq))
    simp [occSum, hz, hrest]

/-- Effect of the full aggregation fold on one key: starting from the
accumulator `a`, key `t` ends at its prior value plus the total weight the
cache contributes under `f`, and is untouched when no entry mentions `t`. -/
theorem alistLookup_aggregate (f : CapabilityMessage → Int) (c : Cache) :
    ∀ (a : List (PyStr × Int)) (t : PyStr),
    alistLookup (c.foldl (fun acc p => addCapabilities acc p.2.capabilities (f p.2)) a) t =
      if ∃ p ∈ c, t ∈ p.2.capabilities
      then some ((alistLookup a t).getD 0 + occSum f c t)
      else alistLookup a t := by
  induction c with
  | nil => intro a t; simp [occSum]
  | cons p c ih =>
    intro a t
    rw [List.foldl_cons, ih, alistLookup_addCapabilities]
    by_cases hm : t ∈ p.2.capabilities
    · simp only [hm, if_pos, Option.getD_some]
      by_cases hex : ∃ q ∈ c, t ∈ q.2.capabilities
      · have hex' : ∃ q ∈ p :: c, t ∈ q.2.capabilities := by
          obtain ⟨q, hq, hqt⟩ := hex
          exact ⟨q, List.mem_cons_of_mem p hq, hqt⟩
        simp only [hex, if_pos, hex', occSum]
        congr 1
        ring
      · have hz : occSum f c t = 0 := by
          apply occSum_eq_zero
          intro q hq
          exact fun hqt => hex ⟨q, hq, hqt⟩
        have hex' : ∃ q ∈ p :: c, t ∈ q.2.capabilities :=
          ⟨p, List.mem_cons_self p c, hm⟩
        simp only [hex, if_neg, not_false_iff, hex', if_pos, occSum, hz]
        congr 1
        ring
    · have hz : p.2.capabilities.count t = 0 := List.count_eq_zero.mpr hm
      have hiff : (∃ q ∈ p :: c, t ∈ q.2.capabilities) ↔
          (∃ q ∈ c, t ∈ q.2.capabilities) := by
        constructor
        · rintro ⟨q, hq, hqt⟩
          rcases List.mem_cons.mp hq with hq | hq
          · exact absurd (hq ▸ hqt) hm
          · exact ⟨q, hq, hqt⟩
        · rintro ⟨q, hq, hqt⟩
          exact ⟨q, List.mem_cons_of_mem p hq, hqt⟩
      by_cases hex : ∃ q ∈ c, t ∈ q.2.capabilities
      · simp [hex, hiff.mpr hex, occSum, hz, hm]
      · simp [hex, hiff, occSum, hz, hm]

/-- C4 (amended): for every cache state, the idle-count aggregation query
maps each task type `t` present in some entry's capabilities list to the sum
over all cache entries of `idle_count` times the number of occurrences of
`t` in that entry's capabilities list (equal to the plain sum of
`idle_count` over entries containing `t` whenever no entry lists a
capability twice), and a task type contained in no entry's list is absent
from the result mapping rather than present with value 0. -/
theorem idle_counts_by_occurrence (c : Cache) (t : PyStr) :
    alistLookup (get_cached_capabilities c) t =
      if ∃ p ∈ c, t ∈ p.2.capabilities
      then some (occSum (fun m => m.idle_count) c t)
      else none := by
  have h := alistLookup_aggregate (fun m => m.idle_count) c [] t
  simpa [get_cached_capabilities, alistLookup] using h

/-- C4 counterexample: with one cached worker whose capabilities list is
`["resize", "resize"]` and whose `idle_count` is 1, the code returns 2 for
"resize" while the claim's entrywise sum over entries containing "resize"
is 1. -/
theorem idle_counts_entrywise_sum_refuted :
    alistLookup
        (get_cached_capabilities
          [("w".data, CapabilityMessage.mk "w".data ["resize".data, "resize".data] 1 0)])
        "resize".data ≠
      some (specIdleSum
        [("w".data, CapabilityMessage.mk "w".data ["resize".data, "resize".data] 1 0)]
        "resize".data) := by decide

/-- C5 (amended): for every cache state, the worker-count aggregation query
maps each task type `t` present in some entry's capabilities list to the
total number of occurrences of `t` across all entries' capabilities lists
(equal to the number of entries containing `t` whenever no entry lists a
capability twice), irrespective of each entry's idle state; on the cache
holding W1 with capabilities ["resize", "convert"] and idle_count 1 and W2
with capabilities ["resize"] and idle_count 0, the idle-count query yields
resize 1, convert 1 and the worker-count query yields resize 2, convert 1. -/
theorem worker_counts_by_occurrence :
    (∀ (c : Cache) (t : PyStr),
      alistLookup (get_worker_count_by_capability c) t =
        if ∃ p ∈ c, t ∈ p.2.capabilities
        then some (occSum (fun _ => 1) c t)
        else none) ∧
    get_cached_capabilities
        [("W1".data, CapabilityMessage.mk "W1".data ["resize".data, "convert".data] 1 0),
         ("W2".data, CapabilityMessage.mk "W2".data ["resize".data] 0 0)] =
      [("resize".data, 1), ("convert".data, 1)] ∧
    get_worker_count_by_capability
        [("W1".data, CapabilityMessage.mk "W1".data ["resize".data, "convert".data] 1 0),
         ("W2".data, CapabilityMessage.mk "W2".data ["resize".data] 0 0)] =
      [("resize".data, 2), ("convert".data, 1)] := by
  refine ⟨?_, by decide, by decide⟩
  intro c t
  have h := alistLookup_aggregate (fun _ => 1) c [] t
  simpa [get_worker_count_by_capability, alistLookup] using h

/-- C5 counterexample: with one cached worker whose capabilities list is
`["convert", "convert"]`, the code returns 2 for "convert" while the claim's
count of entries containing "convert" is 1. -/
theorem worker_counts_entrywise_refuted :
    alistLookup
        (get_worker_count_by_capability
          [("w".data, CapabilityMessage.mk "w".data ["convert".data, "convert".data] 0 0)])
        "convert".data ≠
      some (specWorkerCount
        [("w".data, CapabilityMessage.mk "w".data ["convert".data, "convert".data] 0 0)]
        "convert".data) := by decide

/-- C2: delivering a well-formed non-empty message on a worker's topic makes
that worker's cache entry exactly the parsed content of the message — a full
replacement of whatever entry (if any) was there before, never a merge. -/
theorem on_message_full_replace (parse : PyStr → Option CapabilityMessage)
    (cache : Cache) (topic payload : PyStr) (m : CapabilityMessage)
    (htopic : 3 ≤ (pySplit '/' topic).length)
    (hpayload : ¬(payload = [] ∨ pyStrip payload = []))
    (hparse : parse payload = some m) :
    alistLookup (on_message parse cache topic payload)
      (lastSeg (pySplit '/' topic)) = some m := by
  have hnl : ¬((pySplit '/' topic).length < 3) := Nat.not_lt.mpr htopic
  simp [on_message, hnl, hpayload, hparse, alistLookup_insert_self]

/-- C2 witness: a concrete redelivery on `inference/workers/w1` replaces the
prior entry for `w1` wholesale. -/
theorem on_message_full_replace_witness :
    alistLookup
        (on_message
          (fun s => if s = "p1".data
            then some (CapabilityMessage.mk "w1".data ["resize".data] 1 5)
            else none)
          [("w1".data, CapabilityMessage.mk "w1".data ["old".data] 0 1)]
          "inference/workers/w1".data "p1".data)
        (lastSeg (pySplit '/' "inference/workers/w1".data)) =
      some (CapabilityMessage.mk "w1".data ["resize".data] 1 5) :=
  on_message_full_replace _ _ _ _ _ (by decide) (by decide) (by decide)

/-- C3: an empty or blank payload on a well-formed worker topic removes that
worker's key from the cache entirely, leaves every other worker's entry
unchanged, and is a no-op when the worker is absent. -/
theorem on_message_empty_payload_removes (parse : PyStr → Option CapabilityMessage)
    (cache : Cache) (topic payload : PyStr)
    (htopic : 3 ≤ (pySplit '/' topic).length)
    (hblank : payload = [] ∨ pyStrip payload = []) :
    on_message parse cache topic payload =
      alistErase cache (lastSeg (pySplit '/' topic)) ∧
    alistLookup (on_message parse cache topic payload)
      (lastSeg (pySplit '/' topic)) = none ∧
    (∀ k, k ≠ lastSeg (pySplit '/' topic) →
      alistLookup (on_message parse cache topic payload) k = alistLookup cache k) ∧
    (alistLookup cache (lastSeg (pySplit '/' topic)) = none →
      on_message parse cache topic payload = cache) := by
  have hnl : ¬((pySplit '/' topic).length < 3) := Nat.not_lt.mpr htopic
  have heq : on_message parse cache topic payload =
      alistErase cache (lastSeg (pySplit '/' topic)) := by
    simp [on_message, hnl, hblank]
  refine ⟨heq, ?_, ?_, ?_⟩
  · rw [heq]; exact alistLookup_erase_self cache (lastSeg (pySplit '/' topic))
  · intro k hk; rw [heq]; exact alistLookup_erase_ne cache _ k hk
  · intro habs; rw [heq]; exact alistErase_of_lookup_none cache _ habs

/-- C3 witness: a concrete empty payload on `inference/workers/w1` removes
`w1` (busy, non-trivial task types) and leaves `w2` untouched. -/
theorem on_message_empty_payload_removes_witness :
    on_message (fun _ => none)
        [("w1".data, CapabilityMessage.mk "w1".data ["resize".data] 0 5),
         ("w2".data, CapabilityMessage.mk "w2".data ["convert".data] 1 5)]
        "inference/workers/w1".data [] =
      alistErase
        [("w1".data, CapabilityMessage.mk "w1".data ["resize".data] 0 5),
         ("w2".data, CapabilityMessage.mk "w2".data ["convert".data] 1 5)]
        (lastSeg (pySplit '/' "inference/workers/w1".data)) ∧
    alistLookup
        (on_message (fun _ => none)
          [("w1".data, CapabilityMessage.mk "w1".data ["resize".data] 0 5),
           ("w2".data, CapabilityMessage.mk "w2".data ["convert".data] 1 5)]
          "inference/workers/w1".data [])
        (lastSeg (pySplit '/' "inference/workers/w1".data)) = none ∧
    alistLookup
        (on_message (fun _ => none)
          [("w1".data, CapabilityMessage.mk "w1".data ["resize".data] 0 5),
           ("w2".data, CapabilityMessage.mk "w2".data ["convert".data] 1 5)]
          "inference/workers/w1".data [])
        "w2".data =
      alistLookup
        [("w1".data, CapabilityMessage.mk "w1".data ["resize".data] 0 5),
         ("w2".data, CapabilityMessage.mk "w2".data ["convert".data] 1 5)]
        "w2".data :=
  have h := on_message_empty_payload_removes (fun _ => none)
    [("w1".data, CapabilityMessage.mk "w1".data ["resize".data] 0 5),
     ("w2".data, CapabilityMessage.mk "w2".data ["convert".data] 1 5)]
    "inference/workers/w1".data [] (by decide) (Or.inl rfl)
  ⟨h.1, h.2.1, h.2.2.1 "w2".data (by decide)⟩

/-- C9: a malformed delivery — a topic with fewer than three path segments,
or a non-empty, non-blank payload that fails to parse — leaves the cache
exactly as it was. -/
theorem on_message_malformed_ignored (parse : PyStr → Option CapabilityMessage)
    (cache : Cache) (topic payload : PyStr) :
    ((pySplit '/' topic).length < 3 →
      on_message parse cache topic payload = cache) ∧
    (¬(payload = [] ∨ pyStrip payload = []) → parse payload = none →
      on_message parse cache topic payload = cache) := by
  constructor
  · intro h
    simp [on_message, h]
  · intro hb hp
    by_cases hlen : (pySplit '/' topic).length < 3
    · simp [on_message, hlen]
    · simp [on_message, hlen, hb, hp]

/-- C9 witness: a one-segment topic and an unparseable payload each leave a
concrete cache unchanged. -/
theorem on_message_malformed_ignored_witness :
    on_message (fun _ => none)
        [("w1".data, CapabilityMessage.mk "w1".data ["resize".data] 1 5)]
        "badtopic".data "x".data =
      [("w1".data, CapabilityMessage.mk "w1".data ["resize".data] 1 5)] ∧
    on_message (fun _ => none)
        [("w1".data, CapabilityMessage.mk "w1".data ["resize".data] 1 5)]
        "inference/workers/w1".data "x".data =
      [("w1".data, CapabilityMessage.mk "w1".data ["resize".data] 1 5)] :=
  ⟨(on_message_malformed_ignored (fun _ => none)
      [("w1".data, CapabilityMessage.mk "w1".data ["resize".data] 1 5)]
      "badtopic".data "x".data).1 (by decide),
   (on_message_malformed_ignored (fun _ => none)
      [("w1".data, CapabilityMessage.mk "w1".data ["resize".data] 1 5)]
      "inference/workers/w1".data "x".data).2 (by decide) rfl⟩

/-- C6: worker startup resolves the active set as `available ∩ requested`,
succeeds with exactly that set iff the intersection is non-empty, and
otherwise fails with one of three pairwise-distinct diagnostics: "no plugins
found" when something was requested but nothing is available, "no matching
plugins" when both sets are non-empty but disjoint, and "no task types
specified" when neither a filter nor any plugins are given; the scenario
requested ["a", "b"] with available ["b", "c"] succeeds with active set
containing exactly "b". -/
theorem resolve_active_tasks_diagnostics
    (available : Finset PyStr) (supported_tasks : Option (List PyStr))
    (configTasks : List PyStr) :
    ((∃ e, resolveActiveTasks available supported_tasks configTasks = Except.error e) ↔
      available ∩ resolveRequestedTasks available supported_tasks configTasks = ∅) ∧
    (available ∩ resolveRequestedTasks available supported_tasks configTasks ≠ ∅ →
      resolveActiveTasks available supported_tasks configTasks =
        Except.ok (available ∩ resolveRequestedTasks available supported_tasks configTasks)) ∧
    (resolveRequestedTasks available supported_tasks configTasks ≠ ∅ → available = ∅ →
      resolveActiveTasks available supported_tasks configTasks =
        Except.error WorkerInitError.noPluginsFound) ∧
    (resolveRequestedTasks available supported_tasks configTasks ≠ ∅ → available ≠ ∅ →
      available ∩ resolveRequestedTasks available supported_tasks configTasks = ∅ →
      resolveActiveTasks available supported_tasks configTasks =
        Except.error (WorkerInitError.noMatchingPlugins
          (resolveRequestedTasks available supported_tasks configTasks) available)) ∧
    ((supported_tasks = none ∨ supported_tasks = some []) → configTasks = [] →
      available = ∅ →
      resolveActiveTasks available supported_tasks configTasks =
        Except.error WorkerInitError.noTaskTypesSpecified) ∧
    resolveActiveTasks {"b".data, "c".data} (some ["a".data, "b".data]) [] =
      Except.ok {"b".data} ∧
    (∀ r a, WorkerInitError.noPluginsFound ≠ WorkerInitError.noMatchingPlugins r a) ∧
    (∀ r a, WorkerInitError.noMatchingPlugins r a ≠ WorkerInitError.noTaskTypesSpecified) ∧
    WorkerInitError.noPluginsFound ≠ WorkerInitError.noTaskTypesSpecified := by
  refine ⟨?_, ?_, ?_, ?_, ?_, rfl,
    fun r a h => WorkerInitError.noConfusion h,
    fun r a h => WorkerInitError.noConfusion h,
    fun h => WorkerInitError.noConfusion h⟩
  · constructor
    · rintro ⟨e, he⟩
      by_contra hne
      simp [resolveActiveTasks, hne] at he
    · intro h
      simp only [resolveActiveTasks, h, if_true]
      split_ifs <;> exact ⟨_, rfl⟩
  · intro h
    simp [resolveActiveTasks, h]
  · intro h1 h2
    subst h2
    have hact :
        (∅ : Finset PyStr) ∩ resolveRequestedTasks ∅ supported_tasks configTasks = ∅ := by
      simp
    simp [resolveActiveTasks, hact, h1]
  · intro h1 h2 h3
    simp [resolveActiveTasks, h3, h1, h2]
  · intro hst hcf hav
    rcases hst with h | h <;> subst h <;> subst hcf <;> subst hav <;> rfl

/-- C6 witness: the three diagnostics and the successful scenario at
concrete inputs. -/
theorem resolve_active_tasks_diagnostics_witness :
    resolveActiveTasks ∅ (some ["x".data]) [] =
      Except.error WorkerInitError.noPluginsFound ∧
    resolveActiveTasks {"a".data, "b".data} (some ["x".data]) [] =
      Except.error (WorkerInitError.noMatchingPlugins
        (resolveRequestedTasks {"a".data, "b".data} (some ["x".data]) [])
        {"a".data, "b".data}) ∧
    resolveActiveTasks ∅ none [] =
      Except.error WorkerInitError.noTaskTypesSpecified ∧
    resolveActiveTasks {"b".data, "c".data} (some ["a".data, "b".data]) [] =
      Except.ok {"b".data} :=
  ⟨(resolve_active_tasks_diagnostics ∅ (some ["x".data]) []).2.2.1 (by decide) rfl,
   (resolve_active_tasks_diagnostics {"a".data, "b".data} (some ["x".data]) []).2.2.2.1
     (by decide) (by decide) (by decide),
   (resolve_active_tasks_diagnostics ∅ none []).2.2.2.2.1 (Or.inl rfl) rfl rfl,
   (resolve_active_tasks_diagnostics {"b".data, "c".data}
     (some ["a".data, "b".data]) []).2.2.2.2.2.1⟩

/-- C1: in every invocation of `_process_next_job`, and for every outcome of
`run_once` (job processed, no job, exception), the emitted trace publishes
`idle_count = 0` before `run_once` starts and `idle_count = 1` only after it
ends: the trace is exactly publish-busy, run-start, run-end, publish-idle,
the coroutine returns `True` exactly when a job was processed, the
advertiser ends idle, and no `idle_count = 1` publish occurs anywhere before
the run ends. -/
theorem process_next_job_publish_contract (s : AdvertiserState) (o : RunOutcome) :
    (process_next_job s o).2.2 =
      [WorkerEvent.capPublish 0, WorkerEvent.runOnceStart, WorkerEvent.runOnceEnd o,
       WorkerEvent.capPublish 1] ∧
    ((process_next_job s o).2.1 = true ↔ o = RunOutcome.processed) ∧
    (process_next_job s o).1.is_idle = true ∧
    WorkerEvent.capPublish 1 ∉
      ((process_next_job s o).2.2.takeWhile
        (fun e => !(e == WorkerEvent.runOnceEnd o))) := by
  refine ⟨rfl, ?_, rfl, ?_⟩
  · cases o <;> simp [process_next_job]
  · cases o
    · exact (by decide : WorkerEvent.capPublish 1 ∉
        List.takeWhile (fun e => !(e == WorkerEvent.runOnceEnd RunOutcome.processed))
          [WorkerEvent.capPublish 0, WorkerEvent.runOnceStart,
           WorkerEvent.runOnceEnd RunOutcome.processed, WorkerEvent.capPublish 1])
    · exact (by decide : WorkerEvent.capPublish 1 ∉
        List.takeWhile (fun e => !(e == WorkerEvent.runOnceEnd RunOutcome.noJob))
          [WorkerEvent.capPublish 0, WorkerEvent.runOnceStart,
           WorkerEvent.runOnceEnd RunOutcome.noJob, WorkerEvent.capPublish 1])
    · exact (by decide : WorkerEvent.capPublish 1 ∉
        List.takeWhile (fun e => !(e == WorkerEvent.runOnceEnd RunOutcome.raised))
          [WorkerEvent.capPublish 0, WorkerEvent.runOnceStart,
           WorkerEvent.runOnceEnd RunOutcome.raised, WorkerEvent.capPublish 1])

/-- None of the three shutdown-phase events occurs inside a loop iteration. -/
theorem shutdown_not_mem_iterationTrace (hb : Nat) (o : RunOutcome) (e : WorkerEvent)
    (he : e = WorkerEvent.cancelHeartbeat ∨ e = WorkerEvent.awaitHeartbeatDone ∨
      e = WorkerEvent.clearRetained) : e ∉ iterationTrace hb o := by
  rcases he with h | h | h <;> subst h <;>
    simp [iterationTrace, process_next_job, publishIdleCount, List.mem_replicate]

/-- None of the three shutdown-phase events occurs before the loop exits. -/
theorem shutdown_not_mem_runLoopTrace (iters : List (Nat × RunOutcome)) (e : WorkerEvent)
    (he : e = WorkerEvent.cancelHeartbeat ∨ e = WorkerEvent.awaitHeartbeatDone ∨
      e = WorkerEvent.clearRetained) : e ∉ runLoopTrace iters := by
  intro hm
  simp only [runLoopTrace, List.mem_append, List.mem_flatten, List.mem_map] at hm
  rcases hm with hm | ⟨l, ⟨p, hp, hl⟩, hml⟩
  · rcases he with h | h | h <;> subst h <;> simp at hm
  · subst hl
    exact shutdown_not_mem_iterationTrace p.1 p.2 e he hml

/-- C7: a graceful run (one shutdown signal) produces a trace that ends with
cancel-heartbeat, await-heartbeat, clear — in that order — and contains
exactly one `clear()` publish; no cancel, await or clear occurs earlier, and
no heartbeat publish occurs at or after the heartbeat cancellation, so
`clear()` is never published while the heartbeat task can still publish. -/
theorem run_graceful_shutdown_ordering (iters : List (Nat × RunOutcome)) :
    runTrace iters = runLoopTrace iters ++
      [WorkerEvent.cancelHeartbeat, WorkerEvent.awaitHeartbeatDone,
       WorkerEvent.clearRetained] ∧
    (runTrace iters).count WorkerEvent.clearRetained = 1 ∧
    WorkerEvent.clearRetained ∉ runLoopTrace iters ∧
    WorkerEvent.cancelHeartbeat ∉ runLoopTrace iters ∧
    WorkerEvent.awaitHeartbeatDone ∉ runLoopTrace iters ∧
    WorkerEvent.heartbeatPublish ∉
      ([WorkerEvent.cancelHeartbeat, WorkerEvent.awaitHeartbeatDone,
        WorkerEvent.clearRetained] : List WorkerEvent) := by
  have hclear := shutdown_not_mem_runLoopTrace iters WorkerEvent.clearRetained
    (Or.inr (Or.inr rfl))
  have hcancel := shutdown_not_mem_runLoopTrace iters WorkerEvent.cancelHeartbeat
    (Or.inl rfl)
  have hawait := shutdown_not_mem_runLoopTrace iters WorkerEvent.awaitHeartbeatDone
    (Or.inr (Or.inl rfl))
  refine ⟨rfl, ?_, hclear, hcancel, hawait, by decide⟩
  rw [runTrace, List.count_append, List.count_eq_zero.mpr hclear]
  rfl

/-- C8 (code bug, evaluated at the failing input): a second signal while
the first drain is in progress does raise `SystemExit` with the non-zero
status 1, but — against the claim, the handler's own "Forces immediate
exit" docstring, and the spec's "intentionally skips this ordering" — the
unwinding still runs `run`'s `finally`: the heartbeat is cancelled and
awaited and `clear()` is published before the process exits. -/
theorem second_signal_cleanup_still_runs :
    (signal_handler { shutdown_signal_count := 1, shutdownEventSet := true }).2 =
      SignalAction.forceExit 1 ∧
    (1 : Nat) ≠ 0 ∧
    WorkerEvent.cancelHeartbeat ∈
      cleanupEvents
        (signal_handler { shutdown_signal_count := 1, shutdownEventSet := true }).2 ∧
    WorkerEvent.clearRetained ∈
      cleanupEvents
        (signal_handler { shutdown_signal_count := 1, shutdownEventSet := true }).2 ∧
    cleanupEvents
        (signal_handler { shutdown_signal_count := 1, shutdownEventSet := true }).2 ≠
      [] := by
  decide

/-- C10: for every constructed `CapabilityManager` and every positive
timeout, `wait_for_capabilities` returns `True` immediately — the readiness
event is set unconditionally at the end of `__init__`, even in degraded mode
with no broadcaster and an empty cache. -/
theorem wait_for_capabilities_immediate (broadcasterAvailable : Bool)
    (timeout : Nat) (_h : 0 < timeout) :
    wait_for_capabilities (capabilityManagerInit broadcasterAvailable) timeout = true ∧
    (capabilityManagerInit broadcasterAvailable).ready_event = true ∧
    (capabilityManagerInit broadcasterAvailable).capabilities_cache = [] :=
  ⟨rfl, rfl, rfl⟩

/-- C10 witness: degraded mode (no broadcaster), timeout 5, still ready. -/
theorem wait_for_capabilities_immediate_witness :
    wait_for_capabilities (capabilityManagerInit false) 5 = true ∧
    (capabilityManagerInit false).capabilities_cache = [] :=
  have h := wait_for_capabilities_immediate false 5 (by decide)
  ⟨h.1, h.2.2⟩
